import Mathlib

/-!
# Verification of the DataDriven Bookkeeping dashboard core

A shallow embedding of the financial-statement aggregation layer of
`src/app.py`: the P&L section splitter, summary lookups, revenue-total and
margin KPIs, the spatial hot/cold ZIP classifier, the spatial schema check,
and the monthly trend normalizer.

Modelling conventions:
* a loaded table is a `List` of row structures, in file order;
* a numeric cell that pandas would hold as a float after
  `pd.to_numeric(..., errors="coerce")` is an `Option ℚ`, with `none`
  standing for NaN (a missing value or a failed coercion);
* pandas `.sum()` skips NaN cells (`skipna=True`), so sums are taken over
  the present values;
* Python truthiness tests on a float (`if total_rev_cur`) become `≠ 0`
  tests, and truthiness of a string becomes `≠ ""`.
-/

/-- One row of a loaded profit & loss statement (`load_pl_data` output):
columns `Section`, `Line Item`, `Current Period`, `Prior Period`, `Change`,
the last three coerced to numeric with failures mapped to null. -/
structure PnLRow where
  sectionName : String
  lineItem : String
  currentPeriod : Option ℚ
  priorPeriod : Option ℚ
  change : Option ℚ
deriving DecidableEq

/-- `split_sections` from `src/app.py`: partition a P&L table by exact match
on the `Section` column into revenues, COGS, operating expenses, and the
summary block (which the code keys by `Line Item` via `set_index`; we keep
the summary rows as a list and look them up by `lineItem`). -/
def split_sections (df : List PnLRow) :
    List PnLRow × List PnLRow × List PnLRow × List PnLRow :=
  (df.filter (fun r => r.sectionName == "REVENUES"),
   df.filter (fun r => r.sectionName == "COST OF GOODS SOLD"),
   df.filter (fun r => r.sectionName == "OPERATING EXPENSES"),
   df.filter (fun r => r.sectionName == "SUMMARY"))

/-- `get_summary_value` from `src/app.py`: the `Current Period` figure of the
summary row named `name`, else `0.0`.  The result is `Option ℚ` because the
stored cell may itself be null (a NaN float in the code). -/
def get_summary_value (summary : List PnLRow) (name : String) : Option ℚ :=
  match summary.find? (fun r => r.lineItem == name) with
  | some r => r.currentPeriod
  | none => some 0

/-- Does `hay` start with `needle`? (list version of Python substring
matching machinery). -/
def listStartsWith : List Char → List Char → Bool
  | [], _ => true
  | _ :: _, [] => false
  | a :: as, b :: bs => a == b && listStartsWith as bs

/-- Does `needle` occur contiguously inside `hay`? -/
def listContainsSeq (needle : List Char) : List Char → Bool
  | [] => listStartsWith needle []
  | b :: bs => listStartsWith needle (b :: bs) || listContainsSeq needle bs

/-- The characters of `s` uppercased (`String.toUpper`, taken apart so that
it evaluates by kernel reduction). -/
def upperChars (s : String) : List Char :=
  s.toList.map Char.toUpper

/-- `Series.str.contains("TOTAL", case=False)` from `src/app.py`: does the
line-item name contain the substring `TOTAL`, case-insensitively? -/
def containsTOTAL (s : String) : Bool :=
  listContainsSeq "TOTAL".toList (upperChars s)

/-- `total_rev_cur` from `src/app.py`: sum of `Current Period` over the
revenue rows whose `Line Item` contains `TOTAL` case-insensitively
(NaN cells are skipped by the pandas sum). -/
def total_rev_cur (revenues : List PnLRow) : ℚ :=
  ((revenues.filter (fun r => containsTOTAL r.lineItem)).map
    (fun r => r.currentPeriod.getD 0)).sum

/-- `total_rev_prev` from `src/app.py`: same selection, `Prior Period` sums. -/
def total_rev_prev (revenues : List PnLRow) : ℚ :=
  ((revenues.filter (fun r => containsTOTAL r.lineItem)).map
    (fun r => r.priorPeriod.getD 0)).sum

/-- `profit / total_rev_cur if total_rev_cur else 0` from `src/app.py`:
the Python truthiness test on the (never-NaN) float total becomes a `≠ 0`
test; a NaN profit figure propagates through the division (`Option.map`). -/
def marginOf (profit : Option ℚ) (total : ℚ) : Option ℚ :=
  if total = 0 then some 0 else profit.map (fun p => p / total)

/-- `gross_margin` as computed by the shared pre-calcs of `src/app.py`. -/
def gross_margin (df : List PnLRow) : Option ℚ :=
  marginOf (get_summary_value (split_sections df).2.2.2 "GROSS PROFIT (LOSS)")
    (total_rev_cur (split_sections df).1)

/-- `oper_margin` as computed by the shared pre-calcs of `src/app.py`. -/
def oper_margin (df : List PnLRow) : Option ℚ :=
  marginOf (get_summary_value (split_sections df).2.2.2 "OPERATING PROFIT (LOSS)")
    (total_rev_cur (split_sections df).1)

/-- `net_margin` as computed by the shared pre-calcs of `src/app.py`. -/
def net_margin (df : List PnLRow) : Option ℚ :=
  marginOf (get_summary_value (split_sections df).2.2.2 "NET INCOME (LOSS)")
    (total_rev_cur (split_sections df).1)

/-- One row of a loaded spatial ZIP table.  `Zip` and `City` are read as
text; the metric columns `Profit_Current` / `Revenue_Current` are numeric
after coercion, `none` standing for a cell whose coercion failed. -/
structure SpatialRow where
  zip : String
  city : String
  profitCurrent : Option ℚ
  revenueCurrent : Option ℚ
deriving DecidableEq

/-- A loaded spatial table: the header (column names) together with the
rows.  Column presence drives the metric choice and the schema check. -/
structure SpatialTable where
  cols : List String
  rows : List SpatialRow
deriving DecidableEq

/-- `value_col` selection in `generate_spatial_commentary`: prefer
`Profit_Current` if that column exists, else `Revenue_Current`; `none` when
neither column exists. -/
def valueCol (t : SpatialTable) : Option String :=
  if t.cols.contains "Profit_Current" then some "Profit_Current"
  else if t.cols.contains "Revenue_Current" then some "Revenue_Current"
  else none

/-- The chosen metric cell of a row. -/
def metricOf (c : String) (r : SpatialRow) : Option ℚ :=
  if c == "Profit_Current" then r.profitCurrent else r.revenueCurrent

/-- `sdf_valid` in `generate_spatial_commentary`: the rows whose metric
coerced to a number (`~metric_series.isna()`). -/
def validRows (t : SpatialTable) (c : String) : List SpatialRow :=
  t.rows.filter (fun r => (metricOf c r).isSome)

/-- The valid metric values, in row order (`metric_series[valid]`). -/
def validVals (t : SpatialTable) (c : String) : List ℚ :=
  t.rows.filterMap (metricOf c)

/-- `Series.quantile(q)` with the default linear interpolation between
order statistics: with the `n` values sorted ascending, the value at
fractional position `q * (n - 1)`. -/
def quantile (xs : List ℚ) (q : ℚ) : ℚ :=
  let ys := List.insertionSort (fun a b : ℚ => a ≤ b) xs
  if ys.length = 0 then 0
  else
    let pos : ℚ := q * ((ys.length : ℚ) - 1)
    let i : ℕ := ⌊pos⌋.toNat
    let lo := ys.getD i 0
    let hi := ys.getD (min (i + 1) (ys.length - 1)) 0
    lo + (pos - (i : ℚ)) * (hi - lo)

/-- `hot = sdf_valid[metric_series >= q80]` from `src/app.py`. -/
def hotSet (t : SpatialTable) (c : String) : List SpatialRow :=
  (validRows t c).filter
    (fun r => quantile (validVals t c) (4 / 5) ≤ (metricOf c r).getD 0)

/-- `cold = sdf_valid[metric_series <= q20]` from `src/app.py`. -/
def coldSet (t : SpatialTable) (c : String) : List SpatialRow :=
  (validRows t c).filter
    (fun r => (metricOf c r).getD 0 ≤ quantile (validVals t c) (1 / 5))

/-- `int(row["Zip"])` with fallback to the raw value: display the ZIP as an
integer when it parses, else as the raw text. -/
def zipDisplay (z : String) : String :=
  match z.toInt? with
  | some n => toString n
  | none => z

/-- One `zip (city)` pair of `fmt_zip_block`. -/
def fmtZipEntry (r : SpatialRow) : String :=
  zipDisplay r.zip ++ " (" ++ r.city ++ ")"

/-- The entries of `fmt_zip_block`: `df_slice.head(4)` formatted in table
order. -/
def fmtZipEntries (rows : List SpatialRow) : List String :=
  (rows.take 4).map fmtZipEntry

/-- Python `sep.join(parts)`. -/
def joinSep (sep : String) : List String → String
  | [] => ""
  | [x] => x
  | x :: y :: rest => x ++ sep ++ joinSep sep (y :: rest)

/-- `fmt_zip_block` from `src/app.py`. -/
def fmt_zip_block (rows : List SpatialRow) : String :=
  joinSep ", " (fmtZipEntries rows)

/-- The hot-spots narrative line (Python f-string spelled out). -/
def hotLine (industry hotTxt : String) : String :=
  "- **Hot spots** for " ++ industry.toLower ++
    " performance are clustering around **" ++ hotTxt ++ "**."

/-- The cold-spots narrative line. -/
def coldLine (coldTxt : String) : String :=
  "- **Cold spots** (underperforming ZIPs) include **" ++ coldTxt ++ "**."

/-- The `pieces` list built by `generate_spatial_commentary` once a metric
column has been chosen: a hot line when `hot_txt` is truthy, then a cold
line when `cold_txt` is truthy. -/
def spatialPieces (industry : String) (t : SpatialTable) (c : String) :
    List String :=
  let hot := hotSet t c
  let cold := coldSet t c
  let hotTxt := if hot.isEmpty then "" else fmt_zip_block hot
  let coldTxt := if cold.isEmpty then "" else fmt_zip_block cold
  (if hotTxt = "" then [] else [hotLine industry hotTxt]) ++
    (if coldTxt = "" then [] else [coldLine coldTxt])

/-- `generate_spatial_commentary` from `src/app.py`: the guard cascade for
empty data / missing metric columns / no valid numeric values, then the
hot/cold narrative, with a fairly-even fallback if no piece was produced. -/
def generate_spatial_commentary (industry : String) (t : SpatialTable) :
    String :=
  if t.rows.isEmpty then "No spatial data available for this sample."
  else
    match valueCol t with
    | none =>
        "Spatial data is available, but key value columns are missing for this sample."
    | some c =>
        if (validVals t c).isEmpty then
          "Spatial data is loaded, but there are no valid numeric values to analyze."
        else
          let pieces := spatialPieces industry t c
          if pieces.isEmpty then
            "Performance looks fairly even across ZIP codes with no strong hot or cold pockets."
          else joinSep "\n" pieces

/-- The required base columns of the Spatial view in `src/app.py`. -/
def required_cols : List String := ["Zip", "City", "State", "Latitude", "Longitude"]

/-- `missing = [c for c in required_cols if c not in sdf.columns]`. -/
def missingCols (cols : List String) : List String :=
  required_cols.filter (fun c => !(cols.contains c))

/-- The Spatial view's schema gate: `st.error` + `st.stop()` when any
required column is missing (modelled as `Except.error` carrying the missing
columns), else rendering proceeds (`Except.ok`). -/
def checkSpatialSchema (cols : List String) : Except (List String) Unit :=
  if (missingCols cols).isEmpty then Except.ok () else Except.error (missingCols cols)

/-- One row of a loaded monthly trend table.  `month` is `Option String`
because `pd.Categorical` maps unrecognized month labels to NaN (`none`);
a freshly loaded row has `month = some raw`. -/
structure TrendRow where
  month : Option String
  totalRevenue : Option ℚ
  netIncome : Option ℚ
  grossProfit : Option ℚ
  operatingExpenses : Option ℚ
deriving DecidableEq

/-- `month_order` from `src/app.py`. -/
def month_order : List String :=
  ["Jan", "Feb", "Mar", "Apr", "May", "Jun",
   "Jul", "Aug", "Sep", "Oct", "Nov", "Dec"]

/-- `pd.Categorical(tdf["Month"], categories=month_order, ordered=True)`
applied to one row: a recognized month label is kept, any other label
becomes NaN (`none`); no other column is touched. -/
def recatMonth (r : TrendRow) : TrendRow :=
  { r with
    month := r.month.bind
      (fun m => if month_order.contains m then some m else none) }

/-- Sort key of the categorical `Month` column: the calendar position of a
recognized month; NaN sorts last (`na_position="last"`), modelled by the
key `month_order.length = 12`. -/
def monthKey (m : Option String) : ℕ :=
  match m with
  | some s => month_order.indexOf s
  | none => month_order.length

/-- Row comparison used by `sort_values("Month")` on the categorical
column. -/
def monthLE (a b : TrendRow) : Prop := monthKey a.month ≤ monthKey b.month

instance : DecidableRel monthLE := fun _ _ => Nat.decLe _ _

instance : IsTotal TrendRow monthLE := ⟨fun _ _ => Nat.le_total _ _⟩

instance : IsTrans TrendRow monthLE := ⟨fun _ _ _ => Nat.le_trans⟩

/-- The Trends-page normalization of `src/app.py` (the spec's
`normalize(trend_table)`; the bare name `normalize` is taken by Mathlib):
recategorize the `Month` column over the fixed month list, then sort the
rows by it, NaN last. -/
def normalizeTrend (rows : List TrendRow) : List TrendRow :=
  List.insertionSort monthLE (rows.map recatMonth)

/-! ## Helper lemmas -/

lemma sum_filter_if {α : Type} (p : α → Bool) (f : α → ℚ) (l : List α) :
    ((l.filter p).map f).sum = (l.map (fun x => if p x then f x else 0)).sum := by
  induction l with
  | nil => simp
  | cons a t ih => by_cases h : p a <;> simp [List.filter_cons, h, ih]

lemma listStartsWith_iff (n : List Char) :
    ∀ h : List Char, listStartsWith n h = true ↔ ∃ t, h = n ++ t := by
  induction n with
  | nil => intro h; simp [listStartsWith]
  | cons a as ih =>
      intro h
      cases h with
      | nil => simp [listStartsWith]
      | cons b bs =>
          simp only [listStartsWith, Bool.and_eq_true, beq_iff_eq, ih bs]
          constructor
          · rintro ⟨rfl, t, rfl⟩; exact ⟨t, rfl⟩
          · rintro ⟨t, ht⟩
            injection ht with h1 h2
            exact ⟨h1.symm, t, h2⟩

lemma listContainsSeq_iff (n : List Char) :
    ∀ h : List Char, listContainsSeq n h = true ↔ ∃ a b, h = a ++ n ++ b := by
  intro h
  induction h with
  | nil =>
      simp only [listContainsSeq, listStartsWith_iff]
      constructor
      · rintro ⟨t, ht⟩; exact ⟨[], t, ht⟩
      · rintro ⟨a, b, hab⟩
        have h1 := List.append_eq_nil.mp (List.append_eq_nil.mp hab.symm).1
        exact ⟨[], by simp [h1.2]⟩
  | cons c cs ih =>
      simp only [listContainsSeq, Bool.or_eq_true, listStartsWith_iff, ih]
      constructor
      · rintro (⟨t, ht⟩ | ⟨a, b, hab⟩)
        · exact ⟨[], t, by simpa using ht⟩
        · exact ⟨c :: a, b, by simp [hab]⟩
      · rintro ⟨a, b, hab⟩
        cases a with
        | nil => exact Or.inl ⟨b, by simpa using hab⟩
        | cons a0 as =>
            injection hab with h1 h2
            exact Or.inr ⟨as, b, h2⟩

lemma filter_append_perm_or {α : Type} (p q : α → Bool) (l : List α)
    (hpq : ∀ a, ¬(p a = true ∧ q a = true)) :
    (l.filter p ++ l.filter q).Perm (l.filter (fun a => p a || q a)) := by
  induction l with
  | nil => simp
  | cons a t ih =>
      by_cases hp : p a = true
      · have hq : ¬ q a = true := fun hq => hpq a ⟨hp, hq⟩
        simpa [List.filter_cons, hp, hq] using ih.cons a
      · by_cases hq : q a = true
        · simp only [List.filter_cons, hp, hq, if_true, if_false, Bool.or_true,
            ite_true, ite_false]
          exact List.perm_middle.trans (ih.cons a)
        · simpa [List.filter_cons, hp, hq] using ih

/-! ## Claims -/

/-- C1: for every P&L table, `gross_margin`, `oper_margin` and `net_margin`
equal the ratio of the corresponding summary profit figure to
`total_rev_cur`, and each margin is `0` whenever `total_rev_cur` is `0`,
regardless of the profit figure's sign; the zero-revenue case yields the
definite value `0` rather than an undefined/NaN value. -/
theorem margins_ratio_spec (df : List PnLRow) :
    (total_rev_cur (split_sections df).1 = 0 →
      gross_margin df = some 0 ∧ oper_margin df = some 0 ∧
        net_margin df = some 0) ∧
    (total_rev_cur (split_sections df).1 ≠ 0 →
      (∀ p, get_summary_value (split_sections df).2.2.2 "GROSS PROFIT (LOSS)" = some p →
        gross_margin df = some (p / total_rev_cur (split_sections df).1)) ∧
      (∀ p, get_summary_value (split_sections df).2.2.2 "OPERATING PROFIT (LOSS)" = some p →
        oper_margin df = some (p / total_rev_cur (split_sections df).1)) ∧
      (∀ p, get_summary_value (split_sections df).2.2.2 "NET INCOME (LOSS)" = some p →
        net_margin df = some (p / total_rev_cur (split_sections df).1))) := by
  constructor
  · intro h0
    refine ⟨?_, ?_, ?_⟩ <;> simp [gross_margin, oper_margin, net_margin, marginOf, h0]
  · intro hne
    refine ⟨?_, ?_, ?_⟩ <;> intro p hp <;>
      simp [gross_margin, oper_margin, net_margin, marginOf, hne, hp]

/-- C1 witness: a P&L whose only TOTAL revenue sums to `0` and whose gross
profit is negative still gets margin `0`; a nonzero-revenue P&L gets the
ratio `60000 / 100000 = 3/5`. -/
theorem margins_ratio_spec_witness :
    gross_margin
      [⟨"REVENUES", "TOTAL REVENUE", some 0, some 0, none⟩,
       ⟨"SUMMARY", "GROSS PROFIT (LOSS)", some (-5), none, none⟩] = some 0 ∧
    gross_margin
      [⟨"REVENUES", "TOTAL REVENUE", some 100000, some 90000, none⟩,
       ⟨"SUMMARY", "GROSS PROFIT (LOSS)", some 60000, none, none⟩] =
      some (3 / 5) := by
  have hT : containsTOTAL "TOTAL REVENUE" = true := by decide
  constructor
  · refine ((margins_ratio_spec _).1 ?_).1
    simp [total_rev_cur, split_sections, List.filter_cons, hT]
  · have h2 := (margins_ratio_spec
      [⟨"REVENUES", "TOTAL REVENUE", some 100000, some 90000, none⟩,
       ⟨"SUMMARY", "GROSS PROFIT (LOSS)", some 60000, none, none⟩]).2
        (by simp [total_rev_cur, split_sections, List.filter_cons, hT])
    have h := h2.1 60000 (by rfl)
    rw [h]
    have ht : total_rev_cur (split_sections
      [⟨"REVENUES", "TOTAL REVENUE", some 100000, some 90000, none⟩,
       ⟨"SUMMARY", "GROSS PROFIT (LOSS)", some 60000, none, none⟩]).1 =
        100000 := by
      simp [total_rev_cur, split_sections, List.filter_cons, hT]
    rw [ht]; norm_num

/-- C2: `get_summary_value` returns the `Current Period` figure of the named
summary row when the name is present (the summary keys being unique, per the
spec invariant), and exactly `0` when the name is absent; being a total
function, it never fails. -/
theorem get_summary_value_spec (summary : List PnLRow) (name : String) :
    ((∀ r ∈ summary, r.lineItem ≠ name) →
      get_summary_value summary name = some 0) ∧
    (summary.Pairwise (fun a b => a.lineItem ≠ b.lineItem) →
      ∀ r ∈ summary, r.lineItem = name →
        get_summary_value summary name = r.currentPeriod) := by
  constructor
  · intro habs
    have hnone : summary.find? (fun r => r.lineItem == name) = none :=
      List.find?_eq_none.mpr (fun r hr => by simpa using habs r hr)
    simp [get_summary_value, hnone]
  · induction summary with
    | nil => intro _ r hr _; cases hr
    | cons a t ih =>
        intro huniq r hr hname
        rcases List.mem_cons.mp hr with rfl | hr
        · simp [get_summary_value, List.find?_cons, hname]
        · have hat : a.lineItem ≠ name := by
            have := (List.pairwise_cons.mp huniq).1 r hr
            simpa [hname] using this
          have ht := ih (List.pairwise_cons.mp huniq).2 r hr hname
          simpa [get_summary_value, List.find?_cons, hat] using ht

/-- C2 witness: lookup of a present key returns its figure, lookup of an
absent key returns `0`. -/
theorem get_summary_value_spec_witness :
    get_summary_value [⟨"SUMMARY", "NET INCOME (LOSS)", some 15000, none, none⟩]
      "MISSING LINE" = some 0 ∧
    get_summary_value [⟨"SUMMARY", "NET INCOME (LOSS)", some 15000, none, none⟩]
      "NET INCOME (LOSS)" = some 15000 := by
  constructor
  · exact (get_summary_value_spec
      [⟨"SUMMARY", "NET INCOME (LOSS)", some 15000, none, none⟩]
      "MISSING LINE").1 (by decide)
  · exact (get_summary_value_spec
      [⟨"SUMMARY", "NET INCOME (LOSS)", some 15000, none, none⟩]
      "NET INCOME (LOSS)").2 (by simp)
      ⟨"SUMMARY", "NET INCOME (LOSS)", some 15000, none, none⟩
      (by simp) rfl

/-- C3: `split_sections` partitions a P&L table by exact match on the
`Section` field: each of revenues/COGS/opex is an order-preserving
sublist of the input, membership in a group forces the matching section
label (so rows with any other section are omitted from all outputs), the
groups are pairwise disjoint, their concatenation is a permutation of the
subset of input rows carrying one of the four labels, and an entirely
absent section yields an empty output rather than an error. -/
theorem split_sections_partition_spec (df : List PnLRow) :
    ((split_sections df).1.Sublist df ∧ (split_sections df).2.1.Sublist df ∧
      (split_sections df).2.2.1.Sublist df) ∧
    (∀ r, (r ∈ (split_sections df).1 → r.sectionName = "REVENUES") ∧
        (r ∈ (split_sections df).2.1 → r.sectionName = "COST OF GOODS SOLD") ∧
        (r ∈ (split_sections df).2.2.1 → r.sectionName = "OPERATING EXPENSES") ∧
        (r ∈ (split_sections df).2.2.2 → r.sectionName = "SUMMARY")) ∧
    (∀ r, ¬(r ∈ (split_sections df).1 ∧ r ∈ (split_sections df).2.1) ∧
        ¬(r ∈ (split_sections df).1 ∧ r ∈ (split_sections df).2.2.1) ∧
        ¬(r ∈ (split_sections df).1 ∧ r ∈ (split_sections df).2.2.2) ∧
        ¬(r ∈ (split_sections df).2.1 ∧ r ∈ (split_sections df).2.2.1) ∧
        ¬(r ∈ (split_sections df).2.1 ∧ r ∈ (split_sections df).2.2.2) ∧
        ¬(r ∈ (split_sections df).2.2.1 ∧ r ∈ (split_sections df).2.2.2)) ∧
    ((split_sections df).1 ++ (split_sections df).2.1 ++
        (split_sections df).2.2.1 ++ (split_sections df).2.2.2).Perm
      (df.filter (fun r => r.sectionName == "REVENUES" ||
        r.sectionName == "COST OF GOODS SOLD" ||
        r.sectionName == "OPERATING EXPENSES" ||
        r.sectionName == "SUMMARY")) ∧
    ((∀ r ∈ df, r.sectionName ≠ "REVENUES") → (split_sections df).1 = []) ∧
    ((∀ r ∈ df, r.sectionName ≠ "COST OF GOODS SOLD") →
      (split_sections df).2.1 = []) ∧
    ((∀ r ∈ df, r.sectionName ≠ "OPERATING EXPENSES") →
      (split_sections df).2.2.1 = []) ∧
    ((∀ r ∈ df, r.sectionName ≠ "SUMMARY") → (split_sections df).2.2.2 = []) := by
  have hmem : ∀ r, (r ∈ (split_sections df).1 → r.sectionName = "REVENUES") ∧
      (r ∈ (split_sections df).2.1 → r.sectionName = "COST OF GOODS SOLD") ∧
      (r ∈ (split_sections df).2.2.1 → r.sectionName = "OPERATING EXPENSES") ∧
      (r ∈ (split_sections df).2.2.2 → r.sectionName = "SUMMARY") := by
    intro r
    refine ⟨fun h => ?_, fun h => ?_, fun h => ?_, fun h => ?_⟩ <;>
      simpa using (List.mem_filter.mp h).2
  refine ⟨⟨List.filter_sublist df, List.filter_sublist df, List.filter_sublist df⟩,
    hmem, ?_, ?_, ?_, ?_, ?_, ?_⟩
  · intro r
    have h := hmem r
    refine ⟨?_, ?_, ?_, ?_, ?_, ?_⟩ <;> rintro ⟨h1, h2⟩
    · exact absurd ((h.1 h1).symm.trans (h.2.1 h2)) (by decide)
    · exact absurd ((h.1 h1).symm.trans (h.2.2.1 h2)) (by decide)
    · exact absurd ((h.1 h1).symm.trans (h.2.2.2 h2)) (by decide)
    · exact absurd ((h.2.1 h1).symm.trans (h.2.2.1 h2)) (by decide)
    · exact absurd ((h.2.1 h1).symm.trans (h.2.2.2 h2)) (by decide)
    · exact absurd ((h.2.2.1 h1).symm.trans (h.2.2.2 h2)) (by decide)
  · have s1 : ((df.filter (fun r => r.sectionName == "REVENUES")) ++
        (df.filter (fun r => r.sectionName == "COST OF GOODS SOLD"))).Perm
        (df.filter (fun r => r.sectionName == "REVENUES" ||
          r.sectionName == "COST OF GOODS SOLD")) := by
      refine filter_append_perm_or _ _ df ?_
      rintro a ⟨h1, h2⟩
      simp only [beq_iff_eq] at h1 h2
      exact absurd (h1.symm.trans h2) (by decide)
    have s2 : ((df.filter (fun r => r.sectionName == "REVENUES" ||
          r.sectionName == "COST OF GOODS SOLD")) ++
        (df.filter (fun r => r.sectionName == "OPERATING EXPENSES"))).Perm
        (df.filter (fun r => (r.sectionName == "REVENUES" ||
          r.sectionName == "COST OF GOODS SOLD") ||
          r.sectionName == "OPERATING EXPENSES")) := by
      refine filter_append_perm_or _ _ df ?_
      rintro a ⟨h12, h3⟩
      simp only [Bool.or_eq_true, beq_iff_eq] at h12 h3
      rcases h12 with h | h <;> exact absurd (h.symm.trans h3) (by decide)
    have s3 : ((df.filter (fun r => (r.sectionName == "REVENUES" ||
          r.sectionName == "COST OF GOODS SOLD") ||
          r.sectionName == "OPERATING EXPENSES")) ++
        (df.filter (fun r => r.sectionName == "SUMMARY"))).Perm
        (df.filter (fun r => ((r.sectionName == "REVENUES" ||
          r.sectionName == "COST OF GOODS SOLD") ||
          r.sectionName == "OPERATING EXPENSES") ||
          r.sectionName == "SUMMARY")) := by
      refine filter_append_perm_or _ _ df ?_
      rintro a ⟨h123, h4⟩
      simp only [Bool.or_eq_true, beq_iff_eq] at h123 h4
      rcases h123 with (h | h) | h <;> exact absurd (h.symm.trans h4) (by decide)
    have chain : (((split_sections df).1 ++ (split_sections df).2.1) ++
        (split_sections df).2.2.1 ++ (split_sections df).2.2.2).Perm
        (df.filter (fun r => ((r.sectionName == "REVENUES" ||
          r.sectionName == "COST OF GOODS SOLD") ||
          r.sectionName == "OPERATING EXPENSES") ||
          r.sectionName == "SUMMARY")) :=
      (((s1.append_right _).append_right _).trans (s2.append_right _)).trans s3
    exact chain
  · intro h
    exact List.filter_eq_nil_iff.mpr (fun r hr => by simpa using h r hr)
  · intro h
    exact List.filter_eq_nil_iff.mpr (fun r hr => by simpa using h r hr)
  · intro h
    exact List.filter_eq_nil_iff.mpr (fun r hr => by simpa using h r hr)
  · intro h
    exact List.filter_eq_nil_iff.mpr (fun r hr => by simpa using h r hr)

/-- C3 witness: on a table with one row per recognized section plus an
unrecognized `ASSETS` row, the splitter omits the `ASSETS` row from every
output, and a table with no `REVENUES` row yields an empty revenues group. -/
theorem split_sections_partition_spec_witness :
    (split_sections
      [⟨"ASSETS", "CASH", some 1, none, none⟩,
       ⟨"SUMMARY", "NET INCOME (LOSS)", some 2, none, none⟩]).1 = [] ∧
    (split_sections
      [⟨"ASSETS", "CASH", some 1, none, none⟩,
       ⟨"SUMMARY", "NET INCOME (LOSS)", some 2, none, none⟩]).2.2.2 =
      [⟨"SUMMARY", "NET INCOME (LOSS)", some 2, none, none⟩] := by
  constructor
  · exact (split_sections_partition_spec _).2.2.2.2.1 (by decide)
  · rfl

/-- C4: `total_rev_cur` / `total_rev_prev` equal the sum of the current /
prior period figures over exactly those revenue rows whose line item
contains the substring `TOTAL` case-insensitively (rows contribute their
figure when they match and `0` otherwise, so several matching rows are all
summed), and the matching test is precisely the occurrence of `TOTAL`
inside the uppercased line item. -/
theorem total_revenue_totals_spec (revenues : List PnLRow) :
    total_rev_cur revenues = (revenues.map (fun r =>
      if containsTOTAL r.lineItem then r.currentPeriod.getD 0 else 0)).sum ∧
    total_rev_prev revenues = (revenues.map (fun r =>
      if containsTOTAL r.lineItem then r.priorPeriod.getD 0 else 0)).sum ∧
    (∀ s : String, containsTOTAL s = true ↔
      ∃ a b, upperChars s = a ++ "TOTAL".toList ++ b) := by
  refine ⟨?_, ?_, ?_⟩
  · exact sum_filter_if _ _ revenues
  · exact sum_filter_if _ _ revenues
  · intro s
    exact listContainsSeq_iff "TOTAL".toList (upperChars s)

/-- C6: however large the spatial table, the formatted hot-spot and
cold-spot entry lists hold at most four entries, and those entries are the
first four members of the respective set in table (encounter) order — the
entry list is the truncation of the full set's entry list, with no sorting
by metric value before truncating. -/
theorem fmt_zip_truncation_spec (t : SpatialTable) (c : String) :
    (fmtZipEntries (hotSet t c)).length ≤ 4 ∧
    fmtZipEntries (hotSet t c) = ((hotSet t c).map fmtZipEntry).take 4 ∧
    (fmtZipEntries (coldSet t c)).length ≤ 4 ∧
    fmtZipEntries (coldSet t c) = ((coldSet t c).map fmtZipEntry).take 4 := by
  refine ⟨?_, ?_, ?_, ?_⟩
  · simp [fmtZipEntries, List.length_take]
  · simp [fmtZipEntries, List.map_take]
  · simp [fmtZipEntries, List.length_take]
  · simp [fmtZipEntries, List.map_take]

/-- C7: the Spatial view signals a schema error exactly when one of the
five required columns `Zip, City, State, Latitude, Longitude` is absent
(the error carries the missing columns and rendering stops); when all five
are present no error is signalled. -/
theorem spatial_schema_spec (cols : List String) :
    ((∃ c ∈ required_cols, c ∉ cols) →
      checkSpatialSchema cols = Except.error (missingCols cols) ∧
        missingCols cols ≠ []) ∧
    ((∀ c ∈ required_cols, c ∈ cols) → checkSpatialSchema cols = Except.ok ()) := by
  constructor
  · rintro ⟨c, hc, hnot⟩
    have hmem : c ∈ missingCols cols := by
      simp only [missingCols, List.mem_filter]
      exact ⟨hc, by simpa using hnot⟩
    have hne : missingCols cols ≠ [] := by
      intro h0; rw [h0] at hmem; cases hmem
    refine ⟨?_, hne⟩
    simp only [checkSpatialSchema]
    rw [if_neg (by simpa [List.isEmpty_iff] using hne)]
  · intro hall
    have h0 : missingCols cols = [] := by
      refine List.filter_eq_nil_iff.mpr (fun c hc => ?_)
      simpa using hall c hc
    simp [checkSpatialSchema, h0]

/-- C7 witness: a header missing `Longitude` is rejected with that column
reported; the full five-column header passes. -/
theorem spatial_schema_spec_witness :
    checkSpatialSchema ["Zip", "City", "State", "Latitude"] =
      Except.error ["Longitude"] ∧
    checkSpatialSchema ["Zip", "City", "State", "Latitude", "Longitude"] =
      Except.ok () := by
  constructor
  · have h := (spatial_schema_spec ["Zip", "City", "State", "Latitude"]).1
      ⟨"Longitude", by decide, by decide⟩
    exact h.1
  · exact (spatial_schema_spec _).2 (by decide)

/-- C8: the normalized trend table is sorted by the fixed calendar key —
recognized month abbreviations carry their calendar position and an
unrecognized (hence nulled) month carries the strictly larger key `12`, so
every unrecognized row comes after every recognized row — and the concrete
table with months `Mar, Jan, Feb` comes out ordered `Jan, Feb, Mar`. -/
theorem normalize_trend_order_spec (rows : List TrendRow) :
    List.Sorted monthLE (normalizeTrend rows) ∧
    monthKey none = month_order.length ∧
    (∀ m ∈ month_order, monthKey (some m) = month_order.indexOf m ∧
      month_order.indexOf m < month_order.length) ∧
    (normalizeTrend
      [⟨some "Mar", none, none, none, none⟩,
       ⟨some "Jan", none, none, none, none⟩,
       ⟨some "Feb", none, none, none, none⟩]).map (fun r => r.month) =
      [some "Jan", some "Feb", some "Mar"] := by
  refine ⟨List.sorted_insertionSort monthLE _, rfl, ?_, by decide⟩
  intro m hm
  exact ⟨rfl, List.indexOf_lt_length.mpr hm⟩

/-- C8 witness: the recognized month `Mar` gets its calendar key, strictly
below the key that unrecognized months sort with. -/
theorem normalize_trend_order_spec_witness :
    monthKey (some "Mar") = 2 ∧ monthKey (some "Mar") < month_order.length := by
  have h := (normalize_trend_order_spec []).2.2.1 "Mar" (by decide)
  constructor
  · exact h.1.trans (by decide)
  · rw [h.1]; exact h.2

/-- C10: normalization keeps exactly the rows of the input (as a
permutation of the recategorized rows); recategorization nulls the month of
every row whose month is not one of the twelve recognized abbreviations
(the original text is lost), keeps a recognized month, and leaves every
other column of every row unchanged. -/
theorem normalize_trend_recat_spec (rows : List TrendRow) :
    (normalizeTrend rows).Perm (rows.map recatMonth) ∧
    (∀ r : TrendRow,
      (recatMonth r).totalRevenue = r.totalRevenue ∧
      (recatMonth r).netIncome = r.netIncome ∧
      (recatMonth r).grossProfit = r.grossProfit ∧
      (recatMonth r).operatingExpenses = r.operatingExpenses) ∧
    (∀ r : TrendRow, ∀ m : String, r.month = some m →
      (month_order.contains m = false → (recatMonth r).month = none) ∧
      (month_order.contains m = true → (recatMonth r).month = some m)) := by
  refine ⟨List.perm_insertionSort monthLE _, fun r => ⟨rfl, rfl, rfl, rfl⟩, ?_⟩
  intro r m hm
  constructor <;> intro hc <;> simp [recatMonth, hm, hc] <;> simpa using hc

/-- C10 witness: an unrecognized month is replaced by null while the other
columns survive, and a recognized month is kept. -/
theorem normalize_trend_recat_spec_witness :
    (recatMonth ⟨some "Bogus", some 1, some 2, some 3, some 4⟩).month = none ∧
    (recatMonth ⟨some "Bogus", some 1, some 2, some 3, some 4⟩).totalRevenue =
      some 1 ∧
    (recatMonth ⟨some "Dec", none, none, none, none⟩).month = some "Dec" := by
  refine ⟨?_, ?_, ?_⟩
  · exact ((normalize_trend_recat_spec []).2.2 _ "Bogus" rfl).1 (by decide)
  · exact ((normalize_trend_recat_spec []).2.1 _).1.trans rfl
  · exact ((normalize_trend_recat_spec []).2.2 _ "Dec" rfl).2 (by decide)

lemma fmtZipEntry_length_pos (r : SpatialRow) : 0 < (fmtZipEntry r).length := by
  have h : (fmtZipEntry r).length =
      (zipDisplay r.zip).length + (" (" : String).length + r.city.length +
        (")" : String).length := by
    simp [fmtZipEntry, String.length_append]
  have h1 : (")" : String).length = 1 := rfl
  omega

lemma joinSep_length_ge_head (sep x : String) (xs : List String) :
    x.length ≤ (joinSep sep (x :: xs)).length := by
  cases xs with
  | nil => simp [joinSep]
  | cons y rest =>
      have h : (joinSep sep (x :: y :: rest)).length =
          x.length + sep.length + (joinSep sep (y :: rest)).length := by
        simp [joinSep, String.length_append]
      omega

lemma fmt_zip_block_ne_empty (rows : List SpatialRow) (hne : rows ≠ []) :
    fmt_zip_block rows ≠ "" := by
  obtain ⟨r, rest, rfl⟩ := List.exists_cons_of_ne_nil hne
  intro h0
  have hform : fmt_zip_block (r :: rest) =
      joinSep ", " (fmtZipEntry r :: (rest.take 3).map fmtZipEntry) := by
    simp [fmt_zip_block, fmtZipEntries]
  have hlen := joinSep_length_ge_head ", " (fmtZipEntry r)
    ((rest.take 3).map fmtZipEntry)
  rw [hform] at h0
  rw [h0] at hlen
  have hpos := fmtZipEntry_length_pos r
  have hz : ("" : String).length = 0 := rfl
  omega

lemma joinSep_cons_eq_append (sep x : String) (xs : List String) :
    ∃ s, joinSep sep (x :: xs) = x ++ s := by
  cases xs with
  | nil => exact ⟨"", by simp [joinSep]⟩
  | cons y rest =>
      exact ⟨sep ++ joinSep sep (y :: rest), by
        simp [joinSep, String.append_assoc]⟩

lemma quantile_exists_ge (xs : List ℚ) (hne : xs ≠ []) (q : ℚ)
    (hq0 : 0 ≤ q) (hq1 : q ≤ 1) : ∃ x ∈ xs, quantile xs q ≤ x := by
  set ys := List.insertionSort (fun a b : ℚ => a ≤ b) xs with hys
  have hperm : ys.Perm xs := List.perm_insertionSort _ xs
  have hsorted : List.Sorted (fun a b : ℚ => a ≤ b) ys :=
    List.sorted_insertionSort _ xs
  have hlen : ys.length = xs.length := hperm.length_eq
  have hys0 : ys.length ≠ 0 := by
    rw [hlen]
    simpa [List.length_eq_zero] using hne
  have h1 : 1 ≤ ys.length := Nat.one_le_iff_ne_zero.mpr hys0
  set n := ys.length with hn
  have hn1 : (0:ℚ) ≤ (n : ℚ) - 1 := by
    have hle : (1:ℚ) ≤ (n:ℚ) := by exact_mod_cast h1
    linarith
  set pos : ℚ := q * ((n : ℚ) - 1) with hpos
  have hpos0 : 0 ≤ pos := mul_nonneg hq0 hn1
  have hposle : pos ≤ (n : ℚ) - 1 := by
    calc pos ≤ 1 * ((n:ℚ) - 1) := mul_le_mul_of_nonneg_right hq1 hn1
      _ = (n:ℚ) - 1 := one_mul _
  have hfl0 : 0 ≤ ⌊pos⌋ := Int.floor_nonneg.mpr hpos0
  set i : ℕ := ⌊pos⌋.toNat with hi
  have hic : (i:ℚ) = ((⌊pos⌋ : ℤ) : ℚ) := by
    rw [hi]
    exact_mod_cast congrArg (fun z : ℤ => (z : ℚ)) (Int.toNat_of_nonneg hfl0)
  have hile : (i:ℚ) ≤ pos := by rw [hic]; exact Int.floor_le pos
  have hfrac1 : pos - (i:ℚ) < 1 := by
    rw [hic]
    have hlf := Int.lt_floor_add_one pos
    linarith
  have hin : i ≤ n - 1 := by
    have hcast : ((n - 1 : ℕ) : ℚ) = (n:ℚ) - 1 := by
      push_cast [Nat.cast_sub h1]
      ring
    have hle : (i:ℚ) ≤ ((n - 1 : ℕ) : ℚ) := by
      rw [hcast]; exact le_trans hile hposle
    exact_mod_cast hle
  have hnpos : 0 < n := h1
  have hsub : n - 1 < n := Nat.sub_lt hnpos Nat.one_pos
  have hiltn : i < n := lt_of_le_of_lt hin hsub
  set j : ℕ := min (i + 1) (n - 1) with hj
  have hjle : j ≤ n - 1 := min_le_right _ _
  have hjn : j < n := lt_of_le_of_lt hjle hsub
  have hij : i ≤ j := le_min (Nat.le_succ i) hin
  have hq_eq : quantile xs q =
      ys.getD i 0 + (pos - (i:ℚ)) * (ys.getD j 0 - ys.getD i 0) := by
    simp only [quantile, ← hys, ← hn, ← hpos, ← hi, ← hj]
    rw [if_neg hys0]
  have hlo : ys.getD i 0 = ys.get ⟨i, hiltn⟩ := by
    rw [List.getD_eq_getElem ys 0 hiltn, List.get_eq_getElem]
  have hhi : ys.getD j 0 = ys.get ⟨j, hjn⟩ := by
    rw [List.getD_eq_getElem ys 0 hjn, List.get_eq_getElem]
  have hlohi : ys.get ⟨i, hiltn⟩ ≤ ys.get ⟨j, hjn⟩ :=
    hsorted.rel_get_of_le (by exact hij)
  have hlast : ys.get ⟨j, hjn⟩ ≤ ys.get ⟨n - 1, hsub⟩ :=
    hsorted.rel_get_of_le (by exact hjle)
  refine ⟨ys.get ⟨n - 1, hsub⟩, hperm.mem_iff.mp (ys.get_mem _ _), ?_⟩
  rw [hq_eq, hlo, hhi]
  have hmul : (pos - (i:ℚ)) * (ys.get ⟨j, hjn⟩ - ys.get ⟨i, hiltn⟩) ≤
      1 * (ys.get ⟨j, hjn⟩ - ys.get ⟨i, hiltn⟩) :=
    mul_le_mul_of_nonneg_right (le_of_lt hfrac1) (sub_nonneg.mpr hlohi)
  linarith

/-- C5: given a chosen metric column with at least one value that coerced
to a number, the hot set is exactly the valid records whose metric is at
least the 80th percentile of the valid values and the cold set exactly
those whose metric is at most the 20th percentile (both percentiles being
the linear-interpolation quantiles computed by `quantile`); a row whose
metric failed coercion belongs to neither set. -/
theorem spatial_hot_cold_spec (t : SpatialTable) (c : String)
    (_hv : validVals t c ≠ []) :
    (∀ r : SpatialRow, r ∈ hotSet t c ↔
      r ∈ t.rows ∧ ∃ v, metricOf c r = some v ∧
        quantile (validVals t c) (4 / 5) ≤ v) ∧
    (∀ r : SpatialRow, r ∈ coldSet t c ↔
      r ∈ t.rows ∧ ∃ v, metricOf c r = some v ∧
        v ≤ quantile (validVals t c) (1 / 5)) ∧
    (∀ r ∈ t.rows, metricOf c r = none →
      r ∉ hotSet t c ∧ r ∉ coldSet t c) := by
  have hhot : ∀ r : SpatialRow, r ∈ hotSet t c ↔
      r ∈ t.rows ∧ ∃ v, metricOf c r = some v ∧
        quantile (validVals t c) (4 / 5) ≤ v := by
    intro r
    simp only [hotSet, validRows, List.mem_filter, Bool.and_eq_true,
      decide_eq_true_eq, and_assoc]
    constructor
    · rintro ⟨hr, hsome, hle⟩
      obtain ⟨v, hmv⟩ := Option.isSome_iff_exists.mp hsome
      exact ⟨hr, v, hmv, by simpa [hmv] using hle⟩
    · rintro ⟨hr, v, hmv, hle⟩
      exact ⟨hr, by simp [hmv], by simpa [hmv] using hle⟩
  have hcold : ∀ r : SpatialRow, r ∈ coldSet t c ↔
      r ∈ t.rows ∧ ∃ v, metricOf c r = some v ∧
        v ≤ quantile (validVals t c) (1 / 5) := by
    intro r
    simp only [coldSet, validRows, List.mem_filter, Bool.and_eq_true,
      decide_eq_true_eq, and_assoc]
    constructor
    · rintro ⟨hr, hsome, hle⟩
      obtain ⟨v, hmv⟩ := Option.isSome_iff_exists.mp hsome
      exact ⟨hr, v, hmv, by simpa [hmv] using hle⟩
    · rintro ⟨hr, v, hmv, hle⟩
      exact ⟨hr, by simp [hmv], by simpa [hmv] using hle⟩
  refine ⟨hhot, hcold, ?_⟩
  intro r _ hnone
  constructor
  · intro hmem
    obtain ⟨_, v, hmv, _⟩ := (hhot r).mp hmem
    rw [hnone] at hmv
    cases hmv
  · intro hmem
    obtain ⟨_, v, hmv, _⟩ := (hcold r).mp hmem
    rw [hnone] at hmv
    cases hmv

/-- C5 witness: in a two-row table with metric values `10` and `20` the row
with value `20` is hot and the row with value `10` is cold; a row whose
metric cell failed coercion is in neither set. -/
theorem spatial_hot_cold_spec_witness :
    (⟨"94110", "SF", some 20, none⟩ : SpatialRow) ∈
      hotSet ⟨["Zip", "City", "Profit_Current"],
        [⟨"94110", "SF", some 20, none⟩, ⟨"94601", "Oakland", some 10, none⟩,
         ⟨"90000", "Bad", none, none⟩]⟩ "Profit_Current" ∧
    (⟨"90000", "Bad", none, none⟩ : SpatialRow) ∉
      hotSet ⟨["Zip", "City", "Profit_Current"],
        [⟨"94110", "SF", some 20, none⟩, ⟨"94601", "Oakland", some 10, none⟩,
         ⟨"90000", "Bad", none, none⟩]⟩ "Profit_Current" := by
  have hvv : validVals ⟨["Zip", "City", "Profit_Current"],
      [⟨"94110", "SF", some 20, none⟩, ⟨"94601", "Oakland", some 10, none⟩,
       ⟨"90000", "Bad", none, none⟩]⟩ "Profit_Current" = [20, 10] := rfl
  have h := spatial_hot_cold_spec ⟨["Zip", "City", "Profit_Current"],
    [⟨"94110", "SF", some 20, none⟩, ⟨"94601", "Oakland", some 10, none⟩,
     ⟨"90000", "Bad", none, none⟩]⟩ "Profit_Current" (by rw [hvv]; decide)
  constructor
  · refine (h.1 _).mpr ⟨by simp, 20, rfl, ?_⟩
    rw [hvv]
    have hq : quantile [20, 10] (4 / 5) = 18 := by
      have hsort : List.insertionSort (fun a b : ℚ => a ≤ b) [20, 10] =
          [10, 20] := by
        norm_num [List.insertionSort, List.orderedInsert]
      simp only [quantile, hsort]
      norm_num
    rw [hq]
    norm_num
  · exact (h.2.2 ⟨"90000", "Bad", none, none⟩ (by simp) rfl).1

lemma string_append_head (a b : String) (c0 : Char) (rest : List Char)
    (ha : a.data = c0 :: rest) : (a ++ b).data.head? = some c0 := by
  rw [String.data_append, ha]
  rfl

/-- C9: whenever the spatial table has a usable metric column and at least
one metric value that coerced to a number, the hot set is nonempty (the
maximum valid value is always at least the 80th percentile), the narrative
piece list is nonempty and starts with the hot-spots line, the commentary
is the join of those pieces, and the "fairly even" fallback sentence is
never produced. -/
theorem spatial_hot_reachability_spec (industry : String) (t : SpatialTable)
    (c : String) (hc : valueCol t = some c) (hv : validVals t c ≠ []) :
    hotSet t c ≠ [] ∧
    spatialPieces industry t c ≠ [] ∧
    (spatialPieces industry t c).head? =
      some (hotLine industry (fmt_zip_block (hotSet t c))) ∧
    generate_spatial_commentary industry t =
      joinSep "\n" (spatialPieces industry t c) ∧
    generate_spatial_commentary industry t ≠
      "Performance looks fairly even across ZIP codes with no strong hot or cold pockets." := by
  obtain ⟨x, hxmem, hxle⟩ := quantile_exists_ge (validVals t c) hv (4 / 5)
    (by norm_num) (by norm_num)
  obtain ⟨r, hr, hmr⟩ := List.mem_filterMap.mp (by simpa [validVals] using hxmem)
  have hrhot : r ∈ hotSet t c := by
    simp only [hotSet, validRows, List.mem_filter, Bool.and_eq_true,
      decide_eq_true_eq]
    exact ⟨⟨hr, by simp [hmr]⟩, by simpa [hmr] using hxle⟩
  have hhot : hotSet t c ≠ [] := List.ne_nil_of_mem hrhot
  have hhotE : (hotSet t c).isEmpty = false := List.isEmpty_eq_false.mpr hhot
  have hfmt : fmt_zip_block (hotSet t c) ≠ "" := fmt_zip_block_ne_empty _ hhot
  have hpieces_head : (spatialPieces industry t c).head? =
      some (hotLine industry (fmt_zip_block (hotSet t c))) := by
    simp only [spatialPieces, hhotE, Bool.false_eq_true, if_false, if_neg hfmt,
      List.singleton_append, List.head?_cons]
  obtain ⟨p0, rest, hl⟩ : ∃ p0 rest, spatialPieces industry t c = p0 :: rest := by
    cases hp : spatialPieces industry t c with
    | nil => rw [hp] at hpieces_head; cases hpieces_head
    | cons a l => exact ⟨a, l, rfl⟩
  have hp0 : p0 = hotLine industry (fmt_zip_block (hotSet t c)) := by
    rw [hl, List.head?_cons] at hpieces_head
    exact Option.some_inj.mp hpieces_head
  have hpieces_ne : spatialPieces industry t c ≠ [] := by
    rw [hl]; exact List.cons_ne_nil _ _
  have hrows : t.rows ≠ [] := by
    intro h0
    exact hv (by simp [validVals, h0])
  have hrowsE : t.rows.isEmpty = false := List.isEmpty_eq_false.mpr hrows
  have hvE : (validVals t c).isEmpty = false := List.isEmpty_eq_false.mpr hv
  have hpE : (spatialPieces industry t c).isEmpty = false :=
    List.isEmpty_eq_false.mpr hpieces_ne
  have hcomm : generate_spatial_commentary industry t =
      joinSep "\n" (spatialPieces industry t c) := by
    simp only [generate_spatial_commentary, hrowsE, Bool.false_eq_true,
      if_false, hc, hvE, hpE]
  refine ⟨hhot, hpieces_ne, by rw [hl, List.head?_cons, hp0], hcomm, ?_⟩
  obtain ⟨s, hjoin⟩ := joinSep_cons_eq_append "\n" p0 rest
  have hform : generate_spatial_commentary industry t =
      ("- **Hot spots** for " : String) ++
        (industry.toLower ++ (" performance are clustering around **" ++
          (fmt_zip_block (hotSet t c) ++ ("**." ++ s)))) := by
    rw [hcomm, hl, hjoin, hp0]
    simp [hotLine, String.append_assoc]
  rw [hform]
  intro heq
  have h1 : ((("- **Hot spots** for " : String) ++
      (industry.toLower ++ (" performance are clustering around **" ++
        (fmt_zip_block (hotSet t c) ++ ("**." ++ s))))).data).head? =
      some '-' :=
    string_append_head _ _ '-' (" **Hot spots** for " : String).data (by decide)
  rw [heq] at h1
  have h2 : (("Performance looks fairly even across ZIP codes with no strong hot or cold pockets." : String).data).head? = some 'P' := rfl
  rw [h2] at h1
  exact absurd h1 (by decide)

/-- C9 witness: a one-row table with a valid `Profit_Current` value has a
nonempty hot set and never produces the "fairly even" sentence. -/
theorem spatial_hot_reachability_spec_witness :
    hotSet ⟨["Zip", "City", "Profit_Current"], [⟨"94110", "SF", some 10, none⟩]⟩
      "Profit_Current" ≠ [] ∧
    generate_spatial_commentary "Dental"
      ⟨["Zip", "City", "Profit_Current"], [⟨"94110", "SF", some 10, none⟩]⟩ ≠
      "Performance looks fairly even across ZIP codes with no strong hot or cold pockets." := by
  have h := spatial_hot_reachability_spec "Dental"
    ⟨["Zip", "City", "Profit_Current"], [⟨"94110", "SF", some 10, none⟩]⟩
    "Profit_Current" (by decide) (by decide)
  exact ⟨h.1, h.2.2.2.2⟩
